import Mathlib

/-!
Shallow embedding of the bean-go-broker job-queue consumer.

The repository consists of a worker loop (`Broker.Run`), a result policy
(`Broker.handleResult`), a working-directory resolver (`getJobWD` and
`findDomain`), an execution supervisor (`Broker.executeJob`), a dispatcher
(`BrokerDispatcher`) and a reserve adapter (`MustReserveWithoutTimeout`).

External collaborators (the beanstalkd server, the `phpserialize` decoder,
the `cmd` process wrapper) are modelled as oracles: each query the code
makes is a field of an environment structure holding the answer that the
collaborator returns during the iteration under study.  Durations are in
seconds, as `Nat`.  Channel select loops are driven by explicit event
traces: the order of events in the trace is the order in which the Go
select statement would observe them.
-/

namespace BeanBroker

/-- ttrMargin compensates for the integer precision of beanstalkd:
reserving a TTR=1 job can report time-left 0, so the termination timer is
armed for time-left plus this margin (1 second). -/
def ttrMargin : Nat := 1

/-- TimeoutTries: the number of timeouts a job must reach before it is
abandoned without execution. -/
def TimeoutTries : Nat := 1

/-- ReleaseTries: the number of releases a job must reach before it is
abandoned without execution. -/
def ReleaseTries : Nat := 10

/-- DeadlineSoonDelay: sleep between a DEADLINE_SOON reserve answer and the
next reserve attempt (1 second). -/
def DeadlineSoonDelay : Nat := 1

/-- The runtime configuration fields that the broker logic reads
(`cli.Options`). -/
structure Options where
  requeueDelay : Nat
  clusterRoot : String
  instanceRoot : String
deriving Repr, DecidableEq

/-- One `JobResult` record, produced once per job attempt. -/
structure JobResult where
  buried : Bool
  executed : Bool
  exitStatus : Int
  jobId : Nat
  stdout : List Nat
  timedOut : Bool
  error : Option String
deriving Repr, DecidableEq

/-- The Go zero-valued `JobResult` literal with only `JobId` set
(`&JobResult\x7bJobId: job.Id\x7d` extended by named fields at creation). -/
def JobResult.zero (id : Nat) : JobResult :=
  { buried := false, executed := false, exitStatus := 0, jobId := id
    stdout := [], timedOut := false, error := none }

/-- Values produced by the external `phpserialize.Decode`.  An associative
array is a finite list of key-value entries in Go map iteration order;
keys of a Go map are pairwise distinct. -/
inductive PhpVal where
  | str : String → PhpVal
  | int : Int → PhpVal
  | null : PhpVal
  | arr : List (PhpVal × PhpVal) → PhpVal

/-- `findDomain` scans the decoded map for a string key "domain" and
returns its value when that value is a string; a non-string value or a
missing key is an error. -/
def findDomain : List (PhpVal × PhpVal) → Except String String
  | [] => .error "failed to find domain key in job packet"
  | (k, v) :: rest =>
    match k with
    | .str s =>
      if s ≠ "domain" then findDomain rest
      else
        match v with
        | .str d => .ok d
        | _ => .error "value of domain key is not a string"
    | _ => findDomain rest

/-- `strings.ToLower` modelled characterwise with `Char.toLower`; it
agrees with the Go function on every comparison against the ASCII literal
"cluster". -/
def toLowerStr (s : String) : String := String.mk (s.data.map Char.toLower)

/-- `getJobWD` resolves the working directory from the decode outcome of
the job body (the decode itself is the external `phpserialize.Decode`,
supplied as an oracle value `dec`). -/
def getJobWD (o : Options) (dec : Except String PhpVal) : Except String String :=
  match dec with
  | .error e => .error ("failed to unserialize the job, error: " ++ e)
  | .ok v =>
    match v with
    | .arr m =>
      match findDomain m with
      | .error e => .error e
      | .ok domain =>
        if toLowerStr domain == "cluster" then .ok (o.clusterRoot ++ "/worker")
        else .ok (o.instanceRoot ++ "/" ++ domain ++ "/worker")
    | _ => .error "failed to interpret the job packet, expecting a map"

/-- A queue operation issued against the beanstalkd connection: a release
of a job id with a delay in seconds, or a delete of a job id. -/
inductive QueueOp where
  | release : Nat → Nat → QueueOp
  | delete : Nat → QueueOp
deriving Repr, DecidableEq

/-- The delay computed for a release after a failed execution:
`r*r*r*r` seconds where `r` is the release count. -/
def releaseDelay (r : Nat) : Nat := r * r * r * r

/-- Oracle answers consumed by `handleResult`: the `job.Releases()` query
and the outcome of `job.Delete()`. -/
structure HandleEnv where
  releasesQ : Except String Nat
  deleteRes : Except String Unit

/-- `Broker.handleResult`: returns the list of queue operations issued and
the error value the function returns.  On a timed out result nothing is
done.  On exit 0 the job is deleted, and a delete failure is returned.  On
a non-zero exit the job is released with delay `releaseDelay r`, where `r`
falls back to `ReleaseTries` when the releases query fails; the outcome of
that release is assigned to a variable that shadows the named return
value, so the returned error stays nil on this branch. -/
def handleResult (jobId : Nat) (res : JobResult) (env : HandleEnv) :
    List QueueOp × Option String :=
  if res.timedOut then ([], none)
  else if res.exitStatus = 0 then
    ([QueueOp.delete jobId],
      match env.deleteRes with
      | .ok _ => none
      | .error e => some e)
  else
    let r := match env.releasesQ with
      | .ok r => r
      | .error _ => ReleaseTries
    ([QueueOp.release jobId (releaseDelay r)], none)

/-- Events observed by the first select loop of `Broker.executeJob`
(`stdoutReader`): the deadline timer firing, a chunk of stdout data, or
the stdout channel closing.  The order in the trace is the order in which
the select statement observes the events; the timer represents the single
firing of the timer armed for time-left plus `ttrMargin`, so a realistic
trace holds at most one `timer` event across both loops. -/
inductive P1Ev where
  | timer : P1Ev
  | out : List Nat → P1Ev
  | closed : P1Ev
deriving Repr, DecidableEq

/-- Events observed by the second select loop of `Broker.executeJob`
(`waitLoop`): the same timer firing, or the wait channel delivering the
process exit status together with the wait error. -/
inductive P2Ev where
  | timer : P2Ev
  | wait : Int → Option String → P2Ev
deriving Repr, DecidableEq

/-- Oracle answers and event traces consumed by `Broker.executeJob`:
the `job.TimeLeft()` query, `cmd.NewCommand`, `cmd.StartWithStdin`, the
events of the stdout loop, the outcome of `cmd.Terminate()` in that loop,
and the events of the wait loop. -/
structure ExecEnv where
  ttrQ : Except String Nat
  newCmd : Except String Unit
  startCmd : Except String Unit
  p1 : List P1Ev
  termRes : Except String Unit
  p2 : List P2Ev

/-- Outcome of the stdout select loop: the trace ran out with the loop
still blocked, the function returned early because `cmd.Terminate()`
failed, or the stdout channel closed.  The `Nat` counts calls made to
`cmd.Terminate()`. -/
inductive P1Out where
  | blocked : P1Out
  | errored : JobResult → Nat → String → P1Out
  | done : JobResult → Nat → P1Out
deriving Repr, DecidableEq

/-- The `stdoutReader` loop: on a timer event `cmd.Terminate()` is called
and, when it succeeds, `TimedOut` is set; data events are appended to the
captured stdout; a closed channel breaks the loop. -/
def phase1 (termRes : Except String Unit) :
    List P1Ev → JobResult → Nat → P1Out
  | [], _, _ => .blocked
  | P1Ev.timer :: rest, res, tc =>
    (match termRes with
     | .error e => .errored res (tc + 1) e
     | .ok _ => phase1 termRes rest { res with timedOut := true } (tc + 1))
  | P1Ev.out d :: rest, res, tc =>
    phase1 termRes rest { res with stdout := res.stdout ++ d } tc
  | P1Ev.closed :: _, res, tc => .done res tc

/-- Outcome of the wait select loop: blocked (trace exhausted) or done
with the final result and the cumulative `cmd.Terminate()` call count. -/
inductive P2Out where
  | blocked : P2Out
  | done : JobResult → Nat → P2Out
deriving Repr, DecidableEq

/-- The `waitLoop`: a timer event calls `cmd.Terminate()` (its error is
discarded) and sets `TimedOut`; a wait event stops the timer, records the
exit status and breaks the loop.  The branch guarded by `wr.Err == nil`
assigns nil to the error, so the error value is unchanged either way. -/
def phase2 : List P2Ev → JobResult → Nat → P2Out
  | [], _, _ => .blocked
  | P2Ev.timer :: rest, res, tc =>
    phase2 rest { res with timedOut := true } (tc + 1)
  | P2Ev.wait st _ :: _, res, tc =>
    .done { res with exitStatus := st } tc

/-- Outcome of `Broker.executeJob`: the loops blocked on an exhausted
trace, or the function returned the result, its error return value, and
the number of `cmd.Terminate()` calls made. -/
inductive ExecOut where
  | blocked : ExecOut
  | returned : JobResult → Option String → Nat → ExecOut
deriving Repr, DecidableEq

/-- `Broker.executeJob`: allocates the result with `Executed` already
true, queries time-left (arming the timer before the error check), builds
and starts the command, then runs the stdout loop followed by the wait
loop. -/
def executeJob (jobId : Nat) (env : ExecEnv) : ExecOut :=
  let res0 : JobResult :=
    { buried := false, executed := true, exitStatus := 0, jobId := jobId
      stdout := [], timedOut := false, error := none }
  match env.ttrQ with
  | .error e => .returned res0 (some e) 0
  | .ok _ =>
    match env.newCmd with
    | .error e => .returned res0 (some e) 0
    | .ok _ =>
      match env.startCmd with
      | .error e => .returned res0 (some e) 0
      | .ok _ =>
        match phase1 env.termRes env.p1 res0 0 with
        | .blocked => .blocked
        | .errored res tc e => .returned res (some e) tc
        | .done res tc =>
          match phase2 env.p2 res tc with
          | .blocked => .blocked
          | .done res2 tc2 => .returned res2 none tc2

/-- Oracle answers consumed by one iteration of the `Broker.Run` loop:
the `job.Timeouts()` and `job.Releases()` queries, the outcome of the
abandon-path `job.Release(RequeueDelay)` call, the decode outcome of the
job body, the execution environment, the result-handling environment, and
whether a results channel is attached (it is nil under the dispatcher). -/
structure IterEnv where
  timeoutsQ : Except String Nat
  abandonRelease : Except String Unit
  releasesQ : Except String Nat
  decodeRes : Except String PhpVal
  exec : ExecEnv
  handle : HandleEnv
  hasResults : Bool

/-- Observable outcome of one iteration of the `Broker.Run` loop: the
queue operations issued, the result sent on the results channel (if any),
whether `executeJob` was invoked, and whether the loop continues to the
next iteration (`false` means `Run` returns and the worker stops). -/
structure IterOutcome where
  ops : List QueueOp
  emitted : Option JobResult
  execInvoked : Bool
  cont : Bool
deriving Repr, DecidableEq

/-- An iteration either blocks inside `executeJob` on an exhausted event
trace, or completes with an `IterOutcome`. -/
inductive IterResult where
  | blocked : IterResult
  | stepped : IterOutcome → IterResult
deriving Repr, DecidableEq

/-- The result record emitted on the abandon paths:
`JobResult\x7bJobId: job.Id, Buried: true\x7d`. -/
def buriedResult (id : Nat) : JobResult :=
  { buried := true, executed := false, exitStatus := 0, jobId := id
    stdout := [], timedOut := false, error := none }

/-- The abandon path shared by the two pre-execution checks of
`Broker.Run`: release with the configured requeue delay; on release
failure continue without emitting, otherwise emit the buried result when
a results channel is attached, and continue. -/
def abandonStep (o : Options) (jobId : Nat) (env : IterEnv) : IterResult :=
  match env.abandonRelease with
  | .error _ =>
    .stepped { ops := [QueueOp.release jobId o.requeueDelay], emitted := none
               execInvoked := false, cont := true }
  | .ok _ =>
    .stepped { ops := [QueueOp.release jobId o.requeueDelay]
               emitted := if env.hasResults then some (buriedResult jobId) else none
               execInvoked := false, cont := true }

/-- One iteration of the `Broker.Run` loop after a job has been reserved:
the two pre-execution counter checks, working-directory resolution,
execution, and result handling, with every error path returning or
continuing exactly as the source does. -/
def runIteration (o : Options) (jobId : Nat) (env : IterEnv) : IterResult :=
  match env.timeoutsQ with
  | .error _ =>
    .stepped { ops := [], emitted := none, execInvoked := false, cont := false }
  | .ok t =>
    if t ≥ TimeoutTries then abandonStep o jobId env
    else
      match env.releasesQ with
      | .error _ =>
        .stepped { ops := [], emitted := none, execInvoked := false, cont := false }
      | .ok rel =>
        if rel ≥ ReleaseTries then abandonStep o jobId env
        else
          match getJobWD o env.decodeRes with
          | .error _ =>
            .stepped { ops := [], emitted := none, execInvoked := false, cont := false }
          | .ok _ =>
            match executeJob jobId env.exec with
            | .blocked => .blocked
            | .returned res err _ =>
              match err with
              | some _ =>
                .stepped { ops := [], emitted := none, execInvoked := true, cont := false }
              | none =>
                match handleResult jobId res env.handle with
                | (hops, some _) =>
                  .stepped { ops := hops, emitted := none, execInvoked := true, cont := false }
                | (hops, none) =>
                  .stepped { ops := hops
                             emitted := if env.hasResults then some res else none
                             execInvoked := true, cont := true }

/-- State of the `BrokerDispatcher`: the watched-tube set, the `(tube,
slot)` pairs of the broker goroutines spawned so far in spawn order, the
configured workers per tube, whether the shared `ret` channel has been
closed, and the wait-group counter. -/
structure DState where
  tubeSet : List String
  started : List (String × Nat)
  perTube : Nat
  retClosed : Bool
  wg : Nat
deriving Repr, DecidableEq

/-- `BrokerDispatcher.runBroker` up to its suspension point: increments
the wait group and spawns the broker goroutine for `(tube, slot)`; the
function then blocks on the shared `ret` channel until shutdown before
closing the ticker. -/
def runBroker (tube : String) (slot : Nat) (s : DState) : DState :=
  { s with wg := s.wg + 1, started := s.started ++ [(tube, slot)] }

/-- `BrokerDispatcher.RunTube`: unconditionally marks the tube watched and
then runs `runBroker` for slots `0` to `perTube - 1`; there is no check of
the watched set in this function. -/
def RunTube (tube : String) (s : DState) : DState :=
  let s1 := if tube ∈ s.tubeSet then s else { s with tubeSet := s.tubeSet ++ [tube] }
  (List.range s1.perTube).foldl (fun st i => runBroker tube i st) s1

/-- One pass of `BrokerDispatcher.watchNewTubes` over the tube names the
server listed: tubes already in the watched set are skipped, new ones go
through `RunTube`. -/
def watchNewTubes (tubes : List String) (s : DState) : DState :=
  tubes.foldl (fun st tube => if tube ∈ st.tubeSet then st else RunTube tube st) s

/-- `BrokerDispatcher.Shutdown` is exactly `close(bd.ret)`.  Closing an
already closed channel panics in Go, modelled as the error case. -/
def Shutdown (s : DState) : Except String DState :=
  if s.retClosed then .error "close of closed channel"
  else .ok { s with retClosed := true }

/-- The number of broker goroutines spawned so far for a given tube. -/
def startedFor (tube : String) (s : DState) : Nat :=
  (s.started.filter (fun p => p.1 = tube)).length

/-- One answer of the beanstalkd reserve call inside
`MustReserveWithoutTimeout`: a reserved job, `ErrTimeout`, `ErrDeadline`
(DEADLINE_SOON), or any other connection error. -/
inductive ReserveOutcome where
  | ok : Nat → List Nat → ReserveOutcome
  | timeout : ReserveOutcome
  | deadlineSoon : ReserveOutcome
  | other : String → ReserveOutcome
deriving Repr, DecidableEq

/-- Observable behaviour of `MustReserveWithoutTimeout` over a finite
sequence of reserve answers: the job it returns (none when the sequence
ran out with the loop still retrying), the number of
`DeadlineSoonDelay`-second sleeps performed, and the errors logged. -/
structure ReserveRun where
  reserved : Option (Nat × List Nat)
  sleeps : Nat
  logged : List String
deriving Repr, DecidableEq

/-- `bs.MustReserveWithoutTimeout`: loops over reserve answers; a timeout
retries immediately, DEADLINE_SOON sleeps `DeadlineSoonDelay` and
retries, any other error is logged and the loop retries as well; only a
successful reserve leaves the loop. -/
def MustReserveWithoutTimeout : List ReserveOutcome → ReserveRun
  | [] => { reserved := none, sleeps := 0, logged := [] }
  | ReserveOutcome.ok id body :: _ =>
    { reserved := some (id, body), sleeps := 0, logged := [] }
  | ReserveOutcome.timeout :: rest => MustReserveWithoutTimeout rest
  | ReserveOutcome.deadlineSoon :: rest =>
    let r := MustReserveWithoutTimeout rest
    { r with sleeps := r.sleeps + 1 }
  | ReserveOutcome.other e :: rest =>
    let r := MustReserveWithoutTimeout rest
    { r with logged := e :: r.logged }

/-- Modelled from the spec: the adapter contract that callers only ever
see a successfully reserved job — the first successful reserve answer of
the sequence. -/
def firstOk : List ReserveOutcome → Option (Nat × List Nat)
  | [] => none
  | ReserveOutcome.ok id body :: _ => some (id, body)
  | _ :: rest => firstOk rest

/-- The queue operations an iteration issued (none when it blocked before
any result handling). -/
def IterResult.opsOf : IterResult → List QueueOp
  | .blocked => []
  | .stepped out => out.ops

/-- The result an iteration sent to the results channel, if any. -/
def IterResult.emittedOf : IterResult → Option JobResult
  | .blocked => none
  | .stepped out => out.emitted

/-- Whether the iteration invoked `executeJob` (a blocked iteration is
blocked inside `executeJob`, so it did). -/
def IterResult.execInvokedOf : IterResult → Bool
  | .blocked => true
  | .stepped out => out.execInvoked

/-- Whether the iteration lets the worker loop continue. -/
def IterResult.contOf : IterResult → Bool
  | .blocked => false
  | .stepped out => out.cont

/-- Whether an `Except` value is the error case. -/
def isErr {α : Type} : Except String α → Bool
  | .error _ => true
  | .ok _ => false

/-- Whether a decoded PHP value is an associative array. -/
def PhpVal.isArr : PhpVal → Bool
  | .arr _ => true
  | _ => false

/-!  Helper lemmas about the two select loops of `executeJob`. -/

theorem phase1_done_fields (tr : Except String Unit) :
    ∀ (l : List P1Ev) (res : JobResult) (tc : Nat) (r : JobResult) (t : Nat),
    phase1 tr l res tc = P1Out.done r t →
    r.executed = res.executed ∧ r.buried = res.buried ∧ r.error = res.error ∧
    r.jobId = res.jobId ∧ r.exitStatus = res.exitStatus ∧ tc ≤ t ∧
    (res.timedOut = true → r.timedOut = true) := by
  intro l
  induction l with
  | nil => intro res tc r t h; simp [phase1] at h
  | cons ev rest ih =>
    intro res tc r t h
    cases ev with
    | timer =>
      simp only [phase1] at h
      cases tr with
      | error e => simp at h
      | ok u =>
        have := ih _ _ _ _ h
        simpa using ⟨this.1, this.2.1, this.2.2.1, this.2.2.2.1, this.2.2.2.2.1,
          Nat.le_of_succ_le this.2.2.2.2.2.1, fun _ => this.2.2.2.2.2.2 rfl⟩
    | out d =>
      simp only [phase1] at h
      have := ih _ _ _ _ h
      simpa using this
    | closed =>
      simp only [phase1] at h
      cases h
      simp

theorem phase1_errored_fields (tr : Except String Unit) :
    ∀ (l : List P1Ev) (res : JobResult) (tc : Nat) (r : JobResult) (t : Nat) (e : String),
    phase1 tr l res tc = P1Out.errored r t e →
    r.executed = res.executed ∧ r.error = res.error := by
  intro l
  induction l with
  | nil => intro res tc r t e h; simp [phase1] at h
  | cons ev rest ih =>
    intro res tc r t e h
    cases ev with
    | timer =>
      simp only [phase1] at h
      cases tr with
      | error e2 =>
        simp only [P1Out.errored.injEq] at h
        rw [h.1]
        exact ⟨rfl, rfl⟩
      | ok u =>
        have := ih _ _ _ _ _ h
        simpa using this
    | out d =>
      simp only [phase1] at h
      have := ih _ _ _ _ _ h
      simpa using this
    | closed => simp [phase1] at h

theorem phase1_ok_no_error (u : Unit) :
    ∀ (l : List P1Ev) (res : JobResult) (tc : Nat) (r : JobResult) (t : Nat) (e : String),
    phase1 (Except.ok u) l res tc ≠ P1Out.errored r t e := by
  intro l
  induction l with
  | nil => intro res tc r t e h; simp [phase1] at h
  | cons ev rest ih =>
    intro res tc r t e h
    cases ev with
    | timer => simp only [phase1] at h; exact ih _ _ _ _ _ h
    | out d => simp only [phase1] at h; exact ih _ _ _ _ _ h
    | closed => simp [phase1] at h

theorem phase2_done_fields :
    ∀ (l : List P2Ev) (res : JobResult) (tc : Nat) (r : JobResult) (t : Nat),
    phase2 l res tc = P2Out.done r t →
    r.executed = res.executed ∧ r.buried = res.buried ∧ r.error = res.error ∧
    r.jobId = res.jobId ∧ r.stdout = res.stdout ∧ tc ≤ t ∧
    (res.timedOut = true → r.timedOut = true) := by
  intro l
  induction l with
  | nil => intro res tc r t h; simp [phase2] at h
  | cons ev rest ih =>
    intro res tc r t h
    cases ev with
    | timer =>
      simp only [phase2] at h
      have := ih _ _ _ _ h
      simpa using ⟨this.1, this.2.1, this.2.2.1, this.2.2.2.1, this.2.2.2.2.1,
        Nat.le_of_succ_le this.2.2.2.2.2.1, fun _ => this.2.2.2.2.2.2 rfl⟩
    | wait st werr =>
      simp only [phase2] at h
      cases h
      simp

/-- C10: every `JobResult` returned by `executeJob` has `Executed = true`:
the flag is set when the result is allocated, before the time-left query
and before the process is launched, and no later step clears it. -/
theorem executeJob_always_executed (id : Nat) (env : ExecEnv)
    (res : JobResult) (err : Option String) (tc : Nat)
    (h : executeJob id env = ExecOut.returned res err tc) :
    res.executed = true := by
  cases hq : env.ttrQ with
  | error e => simp [executeJob, hq] at h; rw [← h.1]
  | ok ttr =>
    cases hn : env.newCmd with
    | error e => simp [executeJob, hq, hn] at h; rw [← h.1]
    | ok u =>
      cases hs : env.startCmd with
      | error e => simp [executeJob, hq, hn, hs] at h; rw [← h.1]
      | ok u2 =>
        cases hp1 : phase1 env.termRes env.p1
            { buried := false, executed := true, exitStatus := 0, jobId := id
              stdout := [], timedOut := false, error := none } 0 with
        | blocked => simp [executeJob, hq, hn, hs, hp1] at h
        | errored r1 t1 e1 =>
          simp [executeJob, hq, hn, hs, hp1] at h
          rw [← h.1]
          rw [(phase1_errored_fields _ _ _ _ _ _ _ hp1).1]
        | done r1 t1 =>
          cases hp2 : phase2 env.p2 r1 t1 with
          | blocked => simp [executeJob, hq, hn, hs, hp1, hp2] at h
          | done r2 t2 =>
            simp [executeJob, hq, hn, hs, hp1, hp2] at h
            rw [← h.1]
            rw [(phase2_done_fields _ _ _ _ _ hp2).1]
            rw [(phase1_done_fields _ _ _ _ _ _ hp1).1]

/-- C10 witness: an attempt that fails at the time-left query, before any
executor is started, still carries `Executed = true`. -/
theorem executeJob_always_executed_witness :
    ({ buried := false, executed := true, exitStatus := 0, jobId := 3
       stdout := [], timedOut := false, error := none } : JobResult).executed = true :=
  executeJob_always_executed 3
    ⟨Except.error "time-left query failed", Except.ok (), Except.ok (), [],
      Except.ok (), []⟩
    { buried := false, executed := true, exitStatus := 0, jobId := 3
      stdout := [], timedOut := false, error := none }
    (some "time-left query failed") 0 rfl

/-- C3: for every execution result with `TimedOut = true`, `handleResult`
issues no queue operation at all — neither delete nor release — and
returns no error, leaving the queue state of the job unchanged by this
step. -/
theorem handleResult_timedOut_frame (jobId : Nat) (res : JobResult)
    (env : HandleEnv) (h : res.timedOut = true) :
    handleResult jobId res env = ([], none) := by
  simp [handleResult, h]

/-- C3 witness at a concrete timed out result. -/
theorem handleResult_timedOut_frame_witness :
    ({ buried := false, executed := true, exitStatus := 7, jobId := 5
       stdout := [], timedOut := true, error := none } : JobResult).timedOut = true ∧
    handleResult 5
      { buried := false, executed := true, exitStatus := 7, jobId := 5
        stdout := [], timedOut := true, error := none }
      ⟨Except.ok 2, Except.ok ()⟩ = ([], none) :=
  ⟨rfl, handleResult_timedOut_frame 5 _ ⟨Except.ok 2, Except.ok ()⟩ rfl⟩

/-- C2: post-execution disposition of a non-timed-out result: exit
status 0 deletes the job; a non-zero exit releases it with delay
`releaseDelay r = r*r*r*r` seconds, where `r` is the release count read
by this call; the delay strictly increases with `r`; and when the
release-count query fails, `r` is replaced by `ReleaseTries = 10`. -/
theorem handleResult_disposition :
    (∀ (id : Nat) (res : JobResult) (env : HandleEnv),
      res.timedOut = false → res.exitStatus = 0 →
      (handleResult id res env).1 = [QueueOp.delete id]) ∧
    (∀ (id : Nat) (res : JobResult) (env : HandleEnv) (r : Nat),
      res.timedOut = false → res.exitStatus ≠ 0 →
      env.releasesQ = Except.ok r →
      (handleResult id res env).1 = [QueueOp.release id (releaseDelay r)]) ∧
    (∀ r1 r2 : Nat, r1 < r2 → releaseDelay r1 < releaseDelay r2) ∧
    (∀ (id : Nat) (res : JobResult) (env : HandleEnv) (e : String),
      res.timedOut = false → res.exitStatus ≠ 0 →
      env.releasesQ = Except.error e →
      (handleResult id res env).1 = [QueueOp.release id (releaseDelay ReleaseTries)]) := by
  refine ⟨?_, ?_, ?_, ?_⟩
  · intro id res env h0 h1
    simp [handleResult, h0, h1]
  · intro id res env r h0 h1 hq
    simp [handleResult, h0, h1, hq]
  · intro r1 r2 h
    have h4 : r1 ^ 4 < r2 ^ 4 := Nat.pow_lt_pow_left h (by norm_num)
    have e1 : releaseDelay r1 = r1 ^ 4 := by unfold releaseDelay; ring
    have e2 : releaseDelay r2 = r2 ^ 4 := by unfold releaseDelay; ring
    rw [e1, e2]; exact h4
  · intro id res env e h0 h1 hq
    simp [handleResult, h0, h1, hq]

/-- C2 witness: a successful exit deletes, a failed exit with release
count 3 releases with delay 81 seconds, 3 releases delay less than 4
releases delay, and a failed count query falls back to `ReleaseTries`. -/
theorem handleResult_disposition_witness :
    (handleResult 1
      { buried := false, executed := true, exitStatus := 0, jobId := 1
        stdout := [], timedOut := false, error := none }
      ⟨Except.ok 0, Except.ok ()⟩).1 = [QueueOp.delete 1] ∧
    (handleResult 2
      { buried := false, executed := true, exitStatus := 1, jobId := 2
        stdout := [], timedOut := false, error := none }
      ⟨Except.ok 3, Except.ok ()⟩).1 = [QueueOp.release 2 (releaseDelay 3)] ∧
    releaseDelay 3 < releaseDelay 4 ∧
    (handleResult 2
      { buried := false, executed := true, exitStatus := 1, jobId := 2
        stdout := [], timedOut := false, error := none }
      ⟨Except.error "stats failed", Except.ok ()⟩).1 =
      [QueueOp.release 2 (releaseDelay ReleaseTries)] :=
  ⟨handleResult_disposition.1 1 _ _ rfl rfl,
   handleResult_disposition.2.1 2 _ _ 3 rfl (by decide) rfl,
   handleResult_disposition.2.2.1 3 4 (by decide),
   handleResult_disposition.2.2.2 2 _ _ "stats failed" rfl (by decide) rfl⟩

theorem abandonStep_spec (o : Options) (id : Nat) (env : IterEnv) :
    (abandonStep o id env).opsOf = [QueueOp.release id o.requeueDelay] ∧
    (abandonStep o id env).execInvokedOf = false ∧
    (∀ res, (abandonStep o id env).emittedOf = some res →
      res.buried = true ∧ res.executed = false) := by
  cases h : env.abandonRelease with
  | error e =>
    refine ⟨?_, ?_, ?_⟩ <;>
      simp [abandonStep, h, IterResult.opsOf, IterResult.execInvokedOf,
        IterResult.emittedOf]
  | ok u =>
    refine ⟨?_, ?_, ?_⟩
    · simp [abandonStep, h, IterResult.opsOf]
    · simp [abandonStep, h, IterResult.execInvokedOf]
    · intro res hres
      simp only [abandonStep, h, IterResult.emittedOf] at hres
      cases hb : env.hasResults with
      | false => rw [hb] at hres; simp at hres
      | true =>
        rw [hb] at hres
        simp at hres
        rw [← hres]
        exact ⟨rfl, rfl⟩

/-- C1: a reserved job whose timeout count is at least `TimeoutTries = 1`,
or whose timeout count is 0 and release count at least
`ReleaseTries = 10`, is abandoned before execution: the only queue
operation of the iteration is a release with the configured requeue
delay, `executeJob` is never invoked, and any result emitted for the
iteration has `Buried = true` and `Executed = false`. -/
theorem run_pre_execution_abandon (o : Options) (id : Nat) (env : IterEnv)
    (t : Nat) (h : env.timeoutsQ = Except.ok t) :
    (1 ≤ t →
      (runIteration o id env).opsOf = [QueueOp.release id o.requeueDelay] ∧
      (runIteration o id env).execInvokedOf = false ∧
      (∀ res, (runIteration o id env).emittedOf = some res →
        res.buried = true ∧ res.executed = false)) ∧
    (t = 0 → ∀ r, env.releasesQ = Except.ok r → 10 ≤ r →
      (runIteration o id env).opsOf = [QueueOp.release id o.requeueDelay] ∧
      (runIteration o id env).execInvokedOf = false ∧
      (∀ res, (runIteration o id env).emittedOf = some res →
        res.buried = true ∧ res.executed = false)) := by
  constructor
  · intro h1
    have hc : TimeoutTries ≤ t := h1
    have hru : runIteration o id env = abandonStep o id env := by
      simp [runIteration, h, hc]
    rw [hru]
    exact abandonStep_spec o id env
  · intro h0 r hr hr10
    subst h0
    have hc : ¬ (TimeoutTries ≤ 0) := by decide
    have hc2 : ReleaseTries ≤ r := hr10
    have hru : runIteration o id env = abandonStep o id env := by
      simp [runIteration, h, hc, hr, hc2]
    rw [hru]
    exact abandonStep_spec o id env

/-- C1 witness: a job with 2 timeouts, and a job with 0 timeouts and 10
releases, are both abandoned with the requeue delay, without execution,
and the emitted result is buried and not executed. -/
theorem run_pre_execution_abandon_witness :
    ((runIteration ⟨60, "/opt/cluster", "/var/www/html"⟩ 4
        ⟨Except.ok 2, Except.ok (), Except.ok 0, Except.error "unused",
          ⟨Except.ok 1, Except.ok (), Except.ok (), [], Except.ok (), []⟩,
          ⟨Except.ok 0, Except.ok ()⟩, true⟩).opsOf = [QueueOp.release 4 60] ∧
      (runIteration ⟨60, "/opt/cluster", "/var/www/html"⟩ 4
        ⟨Except.ok 2, Except.ok (), Except.ok 0, Except.error "unused",
          ⟨Except.ok 1, Except.ok (), Except.ok (), [], Except.ok (), []⟩,
          ⟨Except.ok 0, Except.ok ()⟩, true⟩).execInvokedOf = false ∧
      ((buriedResult 4).buried = true ∧ (buriedResult 4).executed = false)) ∧
    ((runIteration ⟨60, "/opt/cluster", "/var/www/html"⟩ 9
        ⟨Except.ok 0, Except.ok (), Except.ok 10, Except.error "unused",
          ⟨Except.ok 1, Except.ok (), Except.ok (), [], Except.ok (), []⟩,
          ⟨Except.ok 0, Except.ok ()⟩, true⟩).opsOf = [QueueOp.release 9 60] ∧
      (runIteration ⟨60, "/opt/cluster", "/var/www/html"⟩ 9
        ⟨Except.ok 0, Except.ok (), Except.ok 10, Except.error "unused",
          ⟨Except.ok 1, Except.ok (), Except.ok (), [], Except.ok (), []⟩,
          ⟨Except.ok 0, Except.ok ()⟩, true⟩).execInvokedOf = false) := by
  have t1 := (run_pre_execution_abandon ⟨60, "/opt/cluster", "/var/www/html"⟩ 4
    ⟨Except.ok 2, Except.ok (), Except.ok 0, Except.error "unused",
      ⟨Except.ok 1, Except.ok (), Except.ok (), [], Except.ok (), []⟩,
      ⟨Except.ok 0, Except.ok ()⟩, true⟩ 2 rfl).1 (by decide)
  have t2 := ((run_pre_execution_abandon ⟨60, "/opt/cluster", "/var/www/html"⟩ 9
    ⟨Except.ok 0, Except.ok (), Except.ok 10, Except.error "unused",
      ⟨Except.ok 1, Except.ok (), Except.ok (), [], Except.ok (), []⟩,
      ⟨Except.ok 0, Except.ok ()⟩, true⟩ 0 rfl).2 rfl 10 rfl (by decide))
  exact ⟨⟨t1.1, t1.2.1, t1.2.2 (buriedResult 4) rfl⟩, t2.1, t2.2.1⟩

theorem findDomain_of_mem :
    ∀ (entries : List (PhpVal × PhpVal)) (d : String),
    (PhpVal.str "domain", PhpVal.str d) ∈ entries →
    (∀ v, (PhpVal.str "domain", v) ∈ entries → v = PhpVal.str d) →
    findDomain entries = Except.ok d := by
  intro entries
  induction entries with
  | nil => intro d hmem _; simp at hmem
  | cons p rest ih =>
    intro d hmem huniq
    obtain ⟨k, v⟩ := p
    rcases List.mem_cons.mp hmem with heq | hmem2
    · injection heq with h1 h2
      subst h1
      subst h2
      simp [findDomain]
    · cases k with
      | str s =>
        by_cases hs : s = "domain"
        · subst hs
          have hv := huniq v (List.mem_cons_self _ _)
          rw [hv]
          simp [findDomain]
        · simp only [findDomain, ne_eq, hs, not_false_eq_true, if_true]
          exact ih d hmem2 (fun v2 hv2 => huniq v2 (List.mem_cons_of_mem _ hv2))
      | int n =>
        simp only [findDomain]
        exact ih d hmem2 (fun v2 hv2 => huniq v2 (List.mem_cons_of_mem _ hv2))
      | null =>
        simp only [findDomain]
        exact ih d hmem2 (fun v2 hv2 => huniq v2 (List.mem_cons_of_mem _ hv2))
      | arr m =>
        simp only [findDomain]
        exact ih d hmem2 (fun v2 hv2 => huniq v2 (List.mem_cons_of_mem _ hv2))

theorem findDomain_no_string_domain :
    ∀ (entries : List (PhpVal × PhpVal)),
    (∀ s, (PhpVal.str "domain", PhpVal.str s) ∉ entries) →
    isErr (findDomain entries) = true := by
  intro entries
  induction entries with
  | nil => intro _; rfl
  | cons p rest ih =>
    intro h
    obtain ⟨k, v⟩ := p
    cases k with
    | str s =>
      by_cases hs : s = "domain"
      · subst hs
        cases v with
        | str d => exact absurd (List.mem_cons_self _ _) (h d)
        | int n => simp [findDomain, isErr]
        | null => simp [findDomain, isErr]
        | arr m => simp [findDomain, isErr]
      · simp only [findDomain, ne_eq, hs, not_false_eq_true, if_true]
        exact ih (fun s2 hmem => h s2 (List.mem_cons_of_mem _ hmem))
    | int n =>
      simp only [findDomain]
      exact ih (fun s2 hmem => h s2 (List.mem_cons_of_mem _ hmem))
    | null =>
      simp only [findDomain]
      exact ih (fun s2 hmem => h s2 (List.mem_cons_of_mem _ hmem))
    | arr m =>
      simp only [findDomain]
      exact ih (fun s2 hmem => h s2 (List.mem_cons_of_mem _ hmem))

/-- C4: working-directory resolution.  A payload decoding to a map whose
string key "domain" maps to a string that lowercases to "cluster"
resolves to the configured cluster root plus "/worker"; any other string
domain `d` resolves to the configured instance root plus "/" plus `d`
plus "/worker"; a failed decode, a non-map top level, or a map without a
string-valued "domain" key resolves to an error, and in the worker loop
such an error means `executeJob` is never invoked and no queue operation
is issued in the iteration. -/
theorem getJobWD_routing :
    (∀ (o : Options) (entries : List (PhpVal × PhpVal)) (d : String),
      (PhpVal.str "domain", PhpVal.str d) ∈ entries →
      (∀ v, (PhpVal.str "domain", v) ∈ entries → v = PhpVal.str d) →
      ((toLowerStr d = "cluster" →
        getJobWD o (Except.ok (PhpVal.arr entries)) =
          Except.ok (o.clusterRoot ++ "/worker")) ∧
       (toLowerStr d ≠ "cluster" →
        getJobWD o (Except.ok (PhpVal.arr entries)) =
          Except.ok (o.instanceRoot ++ "/" ++ d ++ "/worker")))) ∧
    (∀ (o : Options) (e : String), isErr (getJobWD o (Except.error e)) = true) ∧
    (∀ (o : Options) (v : PhpVal), v.isArr = false →
      isErr (getJobWD o (Except.ok v)) = true) ∧
    (∀ (o : Options) (entries : List (PhpVal × PhpVal)),
      (∀ s, (PhpVal.str "domain", PhpVal.str s) ∉ entries) →
      isErr (getJobWD o (Except.ok (PhpVal.arr entries))) = true) ∧
    (∀ (o : Options) (id : Nat) (env : IterEnv) (t r : Nat),
      env.timeoutsQ = Except.ok t → t = 0 →
      env.releasesQ = Except.ok r → r < 10 →
      isErr (getJobWD o env.decodeRes) = true →
      (runIteration o id env).execInvokedOf = false ∧
      (runIteration o id env).opsOf = []) := by
  refine ⟨?_, ?_, ?_, ?_, ?_⟩
  · intro o entries d hmem huniq
    have hfd := findDomain_of_mem entries d hmem huniq
    constructor
    · intro hlow
      simp [getJobWD, hfd, hlow]
    · intro hlow
      have : (toLowerStr d == "cluster") = false := by
        simp [hlow]
      simp [getJobWD, hfd, this]
  · intro o e; rfl
  · intro o v hv
    cases v with
    | str s => rfl
    | int n => rfl
    | null => rfl
    | arr m => simp [PhpVal.isArr] at hv
  · intro o entries h
    have hfd := findDomain_no_string_domain entries h
    cases hc : findDomain entries with
    | error e => simp [getJobWD, hc, isErr]
    | ok d => rw [hc] at hfd; simp [isErr] at hfd
  · intro o id env t r ht ht0 hr hrlt hwd
    subst ht0
    cases hc : getJobWD o env.decodeRes with
    | ok wd => rw [hc] at hwd; simp [isErr] at hwd
    | error e =>
      have hc1 : ¬ (TimeoutTries ≤ 0) := by decide
      have hc2 : ¬ (ReleaseTries ≤ r) := by
        intro hle; exact absurd (Nat.lt_of_lt_of_le hrlt hle) (lt_irrefl r)
      have hru : runIteration o id env =
          IterResult.stepped ⟨[], none, false, false⟩ := by
        simp [runIteration, ht, hc1, hr, hc2, hc]
      rw [hru]
      exact ⟨rfl, rfl⟩

/-- C4 witness: "Cluster" (mixed case) routes to the cluster root, domain
"acme" routes under the instance root, and a payload without a domain key
resolves to an error, with no execution and no queue operation in the
iteration. -/
theorem getJobWD_routing_witness :
    getJobWD ⟨60, "/opt/cluster", "/var/www/html"⟩
      (Except.ok (PhpVal.arr [(PhpVal.str "domain", PhpVal.str "Cluster")])) =
      Except.ok "/opt/cluster/worker" ∧
    getJobWD ⟨60, "/opt/cluster", "/var/www/html"⟩
      (Except.ok (PhpVal.arr [(PhpVal.str "domain", PhpVal.str "acme")])) =
      Except.ok "/var/www/html/acme/worker" ∧
    isErr (getJobWD ⟨60, "/opt/cluster", "/var/www/html"⟩
      (Except.ok (PhpVal.arr [(PhpVal.str "kind", PhpVal.str "x")]))) = true ∧
    (runIteration ⟨60, "/opt/cluster", "/var/www/html"⟩ 4
      ⟨Except.ok 0, Except.ok (), Except.ok 0, Except.error "parse error",
        ⟨Except.ok 1, Except.ok (), Except.ok (), [], Except.ok (), []⟩,
        ⟨Except.ok 0, Except.ok ()⟩, true⟩).execInvokedOf = false := by
  have h1 := ((getJobWD_routing.1 ⟨60, "/opt/cluster", "/var/www/html"⟩
    [(PhpVal.str "domain", PhpVal.str "Cluster")] "Cluster"
    (List.mem_cons_self _ _)
    (by intro v hv; simp at hv; exact hv)).1 (by decide))
  have h2 := ((getJobWD_routing.1 ⟨60, "/opt/cluster", "/var/www/html"⟩
    [(PhpVal.str "domain", PhpVal.str "acme")] "acme"
    (List.mem_cons_self _ _)
    (by intro v hv; simp at hv; exact hv)).2 (by decide))
  have h3 := getJobWD_routing.2.2.2.1 ⟨60, "/opt/cluster", "/var/www/html"⟩
    [(PhpVal.str "kind", PhpVal.str "x")]
    (by intro s hmem; simp at hmem)
  have h4 := (getJobWD_routing.2.2.2.2 ⟨60, "/opt/cluster", "/var/www/html"⟩ 4
    ⟨Except.ok 0, Except.ok (), Except.ok 0, Except.error "parse error",
      ⟨Except.ok 1, Except.ok (), Except.ok (), [], Except.ok (), []⟩,
      ⟨Except.ok 0, Except.ok ()⟩, true⟩ 0 0 rfl rfl rfl (by decide) rfl).1
  exact ⟨h1, h2, h3, h4⟩

theorem phase1_outs (tr : Except String Unit) :
    ∀ (outs : List (List Nat)) (l2 : List P1Ev) (res : JobResult) (tc : Nat),
    phase1 tr (List.map P1Ev.out outs ++ l2) res tc =
    phase1 tr l2 { res with stdout := res.stdout ++ outs.flatten } tc := by
  intro outs
  induction outs with
  | nil =>
    intro l2 res tc
    cases res
    simp [List.flatten]
  | cons o os ih =>
    intro l2 res tc
    simp only [List.map_cons, List.cons_append, List.append_eq, phase1]
    rw [ih]
    cases res
    simp [List.flatten, List.append_assoc]

theorem run_after_p2 :
    ∀ (p2 : List P2Ev) (res : JobResult) (tcIn : Nat) (res2 : JobResult)
      (err : Option String) (tc : Nat),
    res.timedOut = true → 1 ≤ tcIn →
    (match phase2 p2 res tcIn with
     | P2Out.blocked => ExecOut.blocked
     | P2Out.done r2 t2 => ExecOut.returned r2 none t2) =
      ExecOut.returned res2 err tc →
    res2.timedOut = true ∧ 1 ≤ tc := by
  intro p2 res tcIn res2 err tc hto htc h
  cases hp2 : phase2 p2 res tcIn with
  | blocked => rw [hp2] at h; simp at h
  | done r2 t2 =>
    rw [hp2] at h
    simp only [ExecOut.returned.injEq] at h
    obtain ⟨h1, _, h3⟩ := h
    have hf := phase2_done_fields p2 res tcIn r2 t2 hp2
    exact ⟨h1 ▸ hf.2.2.2.2.2.2 hto, h3 ▸ Nat.le_trans htc hf.2.2.2.2.2.1⟩

theorem run_after_p1 :
    ∀ (p1rest : List P1Ev) (p2 : List P2Ev) (res : JobResult) (tcIn : Nat)
      (res2 : JobResult) (err : Option String) (tc : Nat),
    res.timedOut = true → 1 ≤ tcIn →
    (match phase1 (Except.ok ()) p1rest res tcIn with
     | P1Out.blocked => ExecOut.blocked
     | P1Out.errored r t e => ExecOut.returned r (some e) t
     | P1Out.done r t =>
       match phase2 p2 r t with
       | P2Out.blocked => ExecOut.blocked
       | P2Out.done r2 t2 => ExecOut.returned r2 none t2) =
      ExecOut.returned res2 err tc →
    res2.timedOut = true ∧ 1 ≤ tc := by
  intro p1rest p2 res tcIn res2 err tc hto htc h
  cases hp1 : phase1 (Except.ok ()) p1rest res tcIn with
  | blocked => rw [hp1] at h; simp at h
  | errored r t e => exact absurd hp1 (phase1_ok_no_error () p1rest res tcIn r t e)
  | done r t =>
    rw [hp1] at h
    have hf := phase1_done_fields (Except.ok ()) p1rest res tcIn r t hp1
    exact run_after_p2 p2 r t res2 err tc (hf.2.2.2.2.2.2 hto)
      (Nat.le_trans htc hf.2.2.2.2.2.1) h

/-- C5: deadline enforcement in `executeJob`, in terms of event traces of
the two select loops.  An executor that finishes within the deadline
(the timer armed for time-left plus `ttrMargin` never fires, so the
stdout trace is data chunks followed by close and the wait trace is the
exit status) is never terminated: the result has `TimedOut = false`, the
exit status and the concatenated stdout, and zero `cmd.Terminate()`
calls.  An executor still producing output when the timer fires (a timer
event before the close event) is terminated — at least one
`cmd.Terminate()` call — and the result has `TimedOut = true`.  The same
single timer also guards the wait phase: a timer event after the stdout
stream closed but before the wait result likewise terminates the process
and marks `TimedOut = true`. -/
theorem executeJob_deadline_enforcement :
    (∀ (id ttr : Nat) (outs : List (List Nat)) (st : Int) (werr : Option String)
       (termRes : Except String Unit),
      executeJob id ⟨Except.ok ttr, Except.ok (), Except.ok (),
          List.map P1Ev.out outs ++ [P1Ev.closed], termRes, [P2Ev.wait st werr]⟩ =
        ExecOut.returned
          { buried := false, executed := true, exitStatus := st, jobId := id
            stdout := outs.flatten, timedOut := false, error := none } none 0) ∧
    (∀ (id ttr : Nat) (outs : List (List Nat)) (rest : List P1Ev)
       (p2 : List P2Ev) (res : JobResult) (err : Option String) (tc : Nat),
      executeJob id ⟨Except.ok ttr, Except.ok (), Except.ok (),
          List.map P1Ev.out outs ++ P1Ev.timer :: rest, Except.ok (), p2⟩ =
        ExecOut.returned res err tc →
      res.timedOut = true ∧ 1 ≤ tc) ∧
    (∀ (id ttr : Nat) (outs : List (List Nat)) (p2rest : List P2Ev)
       (res : JobResult) (err : Option String) (tc : Nat),
      executeJob id ⟨Except.ok ttr, Except.ok (), Except.ok (),
          List.map P1Ev.out outs ++ [P1Ev.closed], Except.ok (),
          P2Ev.timer :: p2rest⟩ = ExecOut.returned res err tc →
      res.timedOut = true ∧ 1 ≤ tc) := by
  refine ⟨?_, ?_, ?_⟩
  · intro id ttr outs st werr termRes
    simp only [executeJob]
    rw [phase1_outs]
    simp [phase1, phase2]
  · intro id ttr outs rest p2 res err tc h
    simp only [executeJob] at h
    rw [phase1_outs] at h
    simp only [phase1] at h
    exact run_after_p1 rest p2 _ _ res err tc rfl (by simp) h
  · intro id ttr outs p2rest res err tc h
    simp only [executeJob] at h
    rw [phase1_outs] at h
    simp only [phase1, phase2] at h
    exact run_after_p2 p2rest _ _ res err tc rfl (by simp) h

/-- C5 witness: a run with one output chunk and a timely exit is
untouched (no terminate call, not timed out); a run whose timer fires
while stdout is open, and a run whose timer fires during the wait phase,
are both marked timed out with a terminate call. -/
theorem executeJob_deadline_enforcement_witness :
    executeJob 1 ⟨Except.ok 5, Except.ok (), Except.ok (),
        List.map P1Ev.out [[104]] ++ [P1Ev.closed], Except.ok (),
        [P2Ev.wait 0 none]⟩ =
      ExecOut.returned
        { buried := false, executed := true, exitStatus := 0, jobId := 1
          stdout := [[104]].flatten, timedOut := false, error := none } none 0 ∧
    (({ buried := false, executed := true, exitStatus := 0, jobId := 1
        stdout := [], timedOut := true, error := none } : JobResult).timedOut = true ∧
      1 ≤ 1) ∧
    (({ buried := false, executed := true, exitStatus := 3, jobId := 1
        stdout := [], timedOut := true, error := none } : JobResult).timedOut = true ∧
      1 ≤ 1) :=
  ⟨executeJob_deadline_enforcement.1 1 5 [[104]] 0 none (Except.ok ()),
   executeJob_deadline_enforcement.2.1 1 5 [] [P1Ev.closed] [P2Ev.wait 0 none]
     { buried := false, executed := true, exitStatus := 0, jobId := 1
       stdout := [], timedOut := true, error := none } none 1 (by rfl),
   executeJob_deadline_enforcement.2.2 1 5 [] [P2Ev.wait 3 none]
     { buried := false, executed := true, exitStatus := 3, jobId := 1
       stdout := [], timedOut := true, error := none } none 1 (by rfl)⟩

/-- C6 counterexample: with healthy counters, a payload decode error makes
the iteration return `cont = false` — the `Run` loop returns and the
worker stops instead of continuing to its next iteration; likewise a
spawn failure stops the worker, emits nothing, and no error value reaches
the Error field of any result. -/
theorem run_error_containment_cex :
    runIteration ⟨60, "/opt/cluster", "/var/www/html"⟩ 1
      ⟨Except.ok 0, Except.ok (), Except.ok 0, Except.error "parse error",
        ⟨Except.ok 5, Except.ok (), Except.ok (), [P1Ev.closed], Except.ok (),
          [P2Ev.wait 0 none]⟩,
        ⟨Except.ok 0, Except.ok ()⟩, true⟩ =
      IterResult.stepped ⟨[], none, false, false⟩ ∧
    runIteration ⟨60, "/opt/cluster", "/var/www/html"⟩ 1
      ⟨Except.ok 0, Except.ok (), Except.ok 0,
        Except.ok (PhpVal.arr [(PhpVal.str "domain", PhpVal.str "acme")]),
        ⟨Except.ok 5, Except.ok (), Except.error "spawn failed", [],
          Except.ok (), []⟩,
        ⟨Except.ok 0, Except.ok ()⟩, true⟩ =
      IterResult.stepped ⟨[], none, true, false⟩ :=
  ⟨rfl, rfl⟩

/-- C6 amended: a payload decode error or an executor infrastructure
error is fatal to the worker, not just to the attempt: the iteration
issues no queue operation, emits no result, and returns `cont = false`
(the `Run` loop returns).  Infrastructure errors travel in the separate
error return of `executeJob`; the Error field of a returned `JobResult`
is never populated. -/
theorem run_error_containment_amended :
    (∀ (o : Options) (id : Nat) (env : IterEnv) (t r : Nat) (e : String),
      env.timeoutsQ = Except.ok t → t = 0 →
      env.releasesQ = Except.ok r → r < 10 →
      env.decodeRes = Except.error e →
      runIteration o id env = IterResult.stepped ⟨[], none, false, false⟩) ∧
    (∀ (o : Options) (id : Nat) (env : IterEnv) (t r ttr : Nat) (wd e : String),
      env.timeoutsQ = Except.ok t → t = 0 →
      env.releasesQ = Except.ok r → r < 10 →
      getJobWD o env.decodeRes = Except.ok wd →
      env.exec.ttrQ = Except.ok ttr →
      env.exec.newCmd = Except.ok () →
      env.exec.startCmd = Except.error e →
      runIteration o id env = IterResult.stepped ⟨[], none, true, false⟩) ∧
    (∀ (id : Nat) (env : ExecEnv) (res : JobResult) (err : Option String)
       (tc : Nat),
      executeJob id env = ExecOut.returned res err tc → res.error = none) := by
  refine ⟨?_, ?_, ?_⟩
  · intro o id env t r e ht ht0 hr hrlt hdec
    subst ht0
    have hc1 : ¬ (TimeoutTries ≤ 0) := by decide
    have hc2 : ¬ (ReleaseTries ≤ r) := fun hle =>
      absurd (Nat.lt_of_lt_of_le hrlt hle) (lt_irrefl r)
    simp [runIteration, ht, hc1, hr, hc2, getJobWD, hdec]
  · intro o id env t r ttr wd e ht ht0 hr hrlt hwd httr hnew hstart
    subst ht0
    have hc1 : ¬ (TimeoutTries ≤ 0) := by decide
    have hc2 : ¬ (ReleaseTries ≤ r) := fun hle =>
      absurd (Nat.lt_of_lt_of_le hrlt hle) (lt_irrefl r)
    simp [runIteration, ht, hc1, hr, hc2, hwd, executeJob, httr, hnew, hstart]
  · intro id env res err tc h
    cases hq : env.ttrQ with
    | error e => simp [executeJob, hq] at h; rw [← h.1]
    | ok ttr =>
      cases hn : env.newCmd with
      | error e => simp [executeJob, hq, hn] at h; rw [← h.1]
      | ok u =>
        cases hs : env.startCmd with
        | error e => simp [executeJob, hq, hn, hs] at h; rw [← h.1]
        | ok u2 =>
          cases hp1 : phase1 env.termRes env.p1
              { buried := false, executed := true, exitStatus := 0, jobId := id
                stdout := [], timedOut := false, error := none } 0 with
          | blocked => simp [executeJob, hq, hn, hs, hp1] at h
          | errored r1 t1 e1 =>
            simp [executeJob, hq, hn, hs, hp1] at h
            rw [← h.1]
            rw [(phase1_errored_fields _ _ _ _ _ _ _ hp1).2]
          | done r1 t1 =>
            cases hp2 : phase2 env.p2 r1 t1 with
            | blocked => simp [executeJob, hq, hn, hs, hp1, hp2] at h
            | done r2 t2 =>
              simp [executeJob, hq, hn, hs, hp1, hp2] at h
              rw [← h.1]
              rw [(phase2_done_fields _ _ _ _ _ hp2).2.2.1]
              rw [(phase1_done_fields _ _ _ _ _ _ hp1).2.2.1]

/-- C6 amended witness: a decode error and a spawn error both stop the
worker at concrete inputs, and a concrete returned result carries no
error in its Error field. -/
theorem run_error_containment_amended_witness :
    runIteration ⟨60, "/opt/cluster", "/var/www/html"⟩ 2
      ⟨Except.ok 0, Except.ok (), Except.ok 3, Except.error "bad body",
        ⟨Except.ok 5, Except.ok (), Except.ok (), [P1Ev.closed], Except.ok (),
          [P2Ev.wait 0 none]⟩,
        ⟨Except.ok 0, Except.ok ()⟩, false⟩ =
      IterResult.stepped ⟨[], none, false, false⟩ ∧
    runIteration ⟨60, "/opt/cluster", "/var/www/html"⟩ 2
      ⟨Except.ok 0, Except.ok (), Except.ok 3,
        Except.ok (PhpVal.arr [(PhpVal.str "domain", PhpVal.str "acme")]),
        ⟨Except.ok 5, Except.ok (), Except.error "spawn failed", [],
          Except.ok (), []⟩,
        ⟨Except.ok 0, Except.ok ()⟩, false⟩ =
      IterResult.stepped ⟨[], none, true, false⟩ ∧
    ({ buried := false, executed := true, exitStatus := 0, jobId := 2
       stdout := [], timedOut := false, error := none } : JobResult).error = none := by
  refine ⟨?_, ?_, ?_⟩
  · exact run_error_containment_amended.1 ⟨60, "/opt/cluster", "/var/www/html"⟩ 2
      ⟨Except.ok 0, Except.ok (), Except.ok 3, Except.error "bad body",
        ⟨Except.ok 5, Except.ok (), Except.ok (), [P1Ev.closed], Except.ok (),
          [P2Ev.wait 0 none]⟩,
        ⟨Except.ok 0, Except.ok ()⟩, false⟩ 0 3 "bad body" rfl rfl rfl
      (by decide) rfl
  · exact run_error_containment_amended.2.1 ⟨60, "/opt/cluster", "/var/www/html"⟩ 2
      ⟨Except.ok 0, Except.ok (), Except.ok 3,
        Except.ok (PhpVal.arr [(PhpVal.str "domain", PhpVal.str "acme")]),
        ⟨Except.ok 5, Except.ok (), Except.error "spawn failed", [],
          Except.ok (), []⟩,
        ⟨Except.ok 0, Except.ok ()⟩, false⟩ 0 3 5 "/var/www/html/acme/worker"
      "spawn failed" rfl rfl rfl (by decide) rfl rfl rfl rfl
  · exact run_error_containment_amended.2.2 2
      ⟨Except.error "boom", Except.ok (), Except.ok (), [], Except.ok (), []⟩
      { buried := false, executed := true, exitStatus := 0, jobId := 2
        stdout := [], timedOut := false, error := none } (some "boom") 0 rfl

theorem foldl_runBroker_tubeSet (tube : String) :
    ∀ (l : List Nat) (s : DState),
    (l.foldl (fun st i => runBroker tube i st) s).tubeSet = s.tubeSet := by
  intro l
  induction l with
  | nil => intro s; rfl
  | cons i rest ih =>
    intro s
    rw [List.foldl_cons, ih]
    rfl

theorem RunTube_tubeSet (tube : String) (s : DState) :
    (RunTube tube s).tubeSet =
      if tube ∈ s.tubeSet then s.tubeSet else s.tubeSet ++ [tube] := by
  unfold RunTube
  by_cases h : tube ∈ s.tubeSet
  · simp [h, foldl_runBroker_tubeSet]
  · simp [h, foldl_runBroker_tubeSet]

theorem mem_RunTube_self (tube : String) (s : DState) :
    tube ∈ (RunTube tube s).tubeSet := by
  rw [RunTube_tubeSet]
  by_cases h : tube ∈ s.tubeSet <;> simp [h]

theorem mem_RunTube_mono (x tube : String) (s : DState) (h : x ∈ s.tubeSet) :
    x ∈ (RunTube tube s).tubeSet := by
  rw [RunTube_tubeSet]
  by_cases h2 : tube ∈ s.tubeSet <;> simp [h2, h]

theorem mem_watchNewTubes_mono :
    ∀ (l : List String) (x : String) (s : DState),
    x ∈ s.tubeSet → x ∈ (watchNewTubes l s).tubeSet := by
  intro l
  induction l with
  | nil => intro x s h; exact h
  | cons t rest ih =>
    intro x s h
    simp only [watchNewTubes, List.foldl_cons]
    by_cases h2 : t ∈ s.tubeSet
    · simp only [h2, if_true]
      exact ih x s h
    · simp only [h2, if_false]
      exact ih x _ (mem_RunTube_mono x t s h)

theorem mem_watchNewTubes_self :
    ∀ (l : List String) (t : String) (s : DState),
    t ∈ l → t ∈ (watchNewTubes l s).tubeSet := by
  intro l
  induction l with
  | nil => intro t s h; simp at h
  | cons a rest ih =>
    intro t s h
    simp only [watchNewTubes, List.foldl_cons]
    rcases List.mem_cons.mp h with rfl | h2
    · by_cases h3 : t ∈ s.tubeSet
      · simp only [h3, if_true]
        exact mem_watchNewTubes_mono rest t s h3
      · simp only [h3, if_false]
        exact mem_watchNewTubes_mono rest t _ (mem_RunTube_self t s)
    · by_cases h3 : a ∈ s.tubeSet
      · simp only [h3, if_true]
        exact ih t s h2
      · simp only [h3, if_false]
        exact ih t _ h2

theorem watchNewTubes_all_watched :
    ∀ (l : List String) (s : DState),
    (∀ t ∈ l, t ∈ s.tubeSet) → watchNewTubes l s = s := by
  intro l
  induction l with
  | nil => intro s _; rfl
  | cons a rest ih =>
    intro s h
    simp only [watchNewTubes, List.foldl_cons]
    have ha : a ∈ s.tubeSet := h a (List.mem_cons_self _ _)
    simp only [ha, if_true]
    exact ih s (fun t ht => h t (List.mem_cons_of_mem _ ht))

theorem startedFor_runBroker (tube : String) (i : Nat) (s : DState) :
    startedFor tube (runBroker tube i s) = startedFor tube s + 1 := by
  simp [startedFor, runBroker, List.filter_append]

theorem startedFor_foldl (tube : String) :
    ∀ (l : List Nat) (s : DState),
    startedFor tube (l.foldl (fun st i => runBroker tube i st) s) =
      startedFor tube s + l.length := by
  intro l
  induction l with
  | nil => intro s; rfl
  | cons i rest ih =>
    intro s
    rw [List.foldl_cons, ih, startedFor_runBroker]
    simp [Nat.add_assoc, Nat.add_comm 1 rest.length]

theorem startedFor_RunTube (tube : String) (s : DState) :
    startedFor tube (RunTube tube s) = startedFor tube s + s.perTube := by
  unfold RunTube
  by_cases h : tube ∈ s.tubeSet
  · simp only [h, if_true]
    rw [startedFor_foldl]
    simp
  · simp only [h, if_false]
    rw [startedFor_foldl]
    simp [startedFor]

/-- C7 counterexample: with `perTube = 1`, calling `RunTube` twice for the
same tube spawns two broker goroutines, not one — `RunTube` contains no
already-watched check, so the second call is not a no-op. -/
theorem runTube_not_idempotent_cex :
    (⟨[], [], 1, false, 0⟩ : DState).perTube = 1 ∧
    startedFor "beta"
      (RunTube "beta" (RunTube "beta" ⟨[], [], 1, false, 0⟩)) = 2 :=
  ⟨rfl, rfl⟩

/-- C7 amended: the already-watched guard lives in `watchNewTubes`, not in
`RunTube`.  Discovery is idempotent — a second `watchNewTubes` pass over
the same tube list changes nothing, and one pass over a fresh tube starts
exactly `perTube` workers — while every direct `RunTube` call starts
`perTube` more workers, watched or not. -/
theorem watch_idempotence_amended :
    (∀ (tubes : List String) (s : DState),
      watchNewTubes tubes (watchNewTubes tubes s) = watchNewTubes tubes s) ∧
    (∀ (t : String) (s : DState), t ∉ s.tubeSet →
      startedFor t (watchNewTubes [t] s) = startedFor t s + s.perTube) ∧
    (∀ (t : String) (s : DState),
      startedFor t (RunTube t s) = startedFor t s + s.perTube) := by
  refine ⟨?_, ?_, ?_⟩
  · intro tubes s
    exact watchNewTubes_all_watched tubes (watchNewTubes tubes s)
      (fun t ht => mem_watchNewTubes_self tubes t s ht)
  · intro t s h
    simp only [watchNewTubes, List.foldl_cons, List.foldl_nil, h, if_false]
    exact startedFor_RunTube t s
  · intro t s
    exact startedFor_RunTube t s

/-- C7 amended witness: one discovery pass over a fresh tube with
`perTube = 2` starts exactly 2 workers. -/
theorem watch_idempotence_amended_witness :
    startedFor "alpha" (watchNewTubes ["alpha"] ⟨[], [], 2, false, 0⟩) =
      startedFor "alpha" ⟨[], [], 2, false, 0⟩ +
        (⟨[], [], 2, false, 0⟩ : DState).perTube :=
  watch_idempotence_amended.2.1 "alpha" ⟨[], [], 2, false, 0⟩ (by decide)

/-- C8 counterexample: `Shutdown` is only `close(bd.ret)`.  It returns
with the wait-group still at 1 — a dispatched worker has not reported
completion — and a second `Shutdown` call closes an already closed
channel, which panics. -/
theorem shutdown_contract_cex :
    Shutdown ⟨[], [("a", 0)], 1, false, 1⟩ =
      Except.ok ⟨[], [("a", 0)], 1, true, 1⟩ ∧
    (⟨[], [("a", 0)], 1, true, 1⟩ : DState).wg = 1 ∧
    Shutdown ⟨[], [("a", 0)], 1, true, 1⟩ =
      Except.error "close of closed channel" :=
  ⟨rfl, rfl, rfl⟩

/-- C8 amended: `Shutdown` closes the shared `ret` channel and returns at
once: it touches neither the wait-group nor the spawned workers (the
separate `Wait` call in `main` blocks for completion), and a second
`Shutdown` panics with close of closed channel. -/
theorem shutdown_amended :
    (∀ s : DState, s.retClosed = false →
      Shutdown s = Except.ok { s with retClosed := true }) ∧
    (∀ (s s2 : DState), Shutdown s = Except.ok s2 →
      s2.wg = s.wg ∧ s2.started = s.started ∧ s2.retClosed = true) ∧
    (∀ s : DState, s.retClosed = true →
      Shutdown s = Except.error "close of closed channel") := by
  refine ⟨?_, ?_, ?_⟩
  · intro s h
    simp [Shutdown, h]
  · intro s s2 h
    unfold Shutdown at h
    by_cases hrc : s.retClosed = true
    · simp [hrc] at h
    · simp [hrc] at h
      rw [← h]
      exact ⟨rfl, rfl, rfl⟩
  · intro s h
    simp [Shutdown, h]

/-- C8 amended witness at a concrete dispatcher state with one live
worker. -/
theorem shutdown_amended_witness :
    Shutdown ⟨["a"], [("a", 0)], 1, false, 1⟩ =
      Except.ok ⟨["a"], [("a", 0)], 1, true, 1⟩ ∧
    ((⟨["a"], [("a", 0)], 1, true, 1⟩ : DState).wg =
        (⟨["a"], [("a", 0)], 1, false, 1⟩ : DState).wg ∧
      (⟨["a"], [("a", 0)], 1, true, 1⟩ : DState).started =
        (⟨["a"], [("a", 0)], 1, false, 1⟩ : DState).started ∧
      (⟨["a"], [("a", 0)], 1, true, 1⟩ : DState).retClosed = true) ∧
    Shutdown ⟨["a"], [("a", 0)], 1, true, 1⟩ =
      Except.error "close of closed channel" :=
  ⟨shutdown_amended.1 ⟨["a"], [("a", 0)], 1, false, 1⟩ rfl,
   shutdown_amended.2.1 ⟨["a"], [("a", 0)], 1, false, 1⟩
     ⟨["a"], [("a", 0)], 1, true, 1⟩ rfl,
   shutdown_amended.2.2 ⟨["a"], [("a", 0)], 1, true, 1⟩ rfl⟩

/-- C9 counterexample: a reserve error that is neither a timeout nor
DEADLINE_SOON is not fatal to the worker — the adapter logs it and keeps
reserving, and here returns the job reserved on the very next attempt. -/
theorem reserve_adapter_cex :
    (MustReserveWithoutTimeout [ReserveOutcome.other "connection reset",
        ReserveOutcome.ok 7 [1, 2]]).reserved = some (7, [1, 2]) ∧
    (MustReserveWithoutTimeout [ReserveOutcome.other "connection reset",
        ReserveOutcome.ok 7 [1, 2]]).logged = ["connection reset"] :=
  ⟨rfl, rfl⟩

/-- C9 amended: the adapter absorbs every non-success answer: a timeout
retries immediately, DEADLINE_SOON sleeps one `DeadlineSoonDelay` unit
and retries, and any other error is logged and retried as well, so the
call only ever returns the first successful reservation — no error is
ever surfaced to the calling worker. -/
theorem reserve_adapter_amended :
    (∀ t : List ReserveOutcome,
      (MustReserveWithoutTimeout t).reserved = firstOk t) ∧
    (∀ t : List ReserveOutcome,
      MustReserveWithoutTimeout (ReserveOutcome.timeout :: t) =
        MustReserveWithoutTimeout t) ∧
    (∀ t : List ReserveOutcome,
      (MustReserveWithoutTimeout (ReserveOutcome.deadlineSoon :: t)).sleeps =
        (MustReserveWithoutTimeout t).sleeps + 1) ∧
    (∀ (e : String) (t : List ReserveOutcome),
      (MustReserveWithoutTimeout (ReserveOutcome.other e :: t)).logged =
        e :: (MustReserveWithoutTimeout t).logged) := by
  refine ⟨?_, ?_, ?_, ?_⟩
  · intro t
    induction t with
    | nil => rfl
    | cons o rest ih =>
      cases o with
      | ok id body => rfl
      | timeout => simpa [MustReserveWithoutTimeout, firstOk] using ih
      | deadlineSoon => simpa [MustReserveWithoutTimeout, firstOk] using ih
      | other e => simpa [MustReserveWithoutTimeout, firstOk] using ih
  · intro t; rfl
  · intro t; rfl
  · intro e t; rfl

end BeanBroker
